import Mathlib

/-!
Verification of the analysis pipeline of the DockerFileAnalysis repository.

Text is embedded as `List Char` (one Lean list element per UTF-16-ish code
point of the TypeScript string; all characters involved are ASCII).
Floating-point numbers are embedded as `Rat`, with the JavaScript `NaN`
represented by `Option.none` where it can arise (`parseFloat` failure);
the modelled quantities stay well inside the range where IEEE doubles
behave like exact rationals for the properties proved here.
-/

set_option autoImplicit false
set_option linter.unusedVariables false
set_option maxRecDepth 8000

namespace DockerAnalysis

/-! ### String-scanning primitives

`extractJSON` in src/services/geminiService.ts (lines 40-46) is built on two
JavaScript regular expressions.  We embed it with explicit list scanning:
`splitFirst pat s` returns the text before and after the leftmost occurrence
of `pat` in `s`, which is exactly how a leftmost regex match over a literal
pattern behaves. -/

/-- `leadsWith p s` holds when `p` is an initial segment of `s`. -/
def leadsWith : List Char → List Char → Bool
  | [], _ => true
  | _ :: _, [] => false
  | a :: as, b :: bs => if a = b then leadsWith as bs else false

/-- Split `s` around the leftmost occurrence of `pat`:
`some (pre, post)` with `s = pre ++ pat ++ post` and `pre` shortest possible,
`none` when `pat` does not occur in `s`. -/
def splitFirst (pat : List Char) : List Char → Option (List Char × List Char)
  | [] => if leadsWith pat [] then some ([], []) else none
  | c :: rest =>
    if leadsWith pat (c :: rest) then some ([], (c :: rest).drop pat.length)
    else (splitFirst pat rest).map (fun pr => (c :: pr.1, pr.2))

/-- Whitespace in the sense of JavaScript `String.prototype.trim`
(restricted to the ASCII whitespace characters that occur here). -/
def isWS (c : Char) : Bool := c = ' ' || c = '\t' || c = '\n' || c = '\r'

/-- Drop leading whitespace. -/
def trimLeft : List Char → List Char
  | [] => []
  | c :: rest => if isWS c then trimLeft rest else c :: rest

/-- JavaScript `trim`: drop leading and trailing whitespace. -/
def jsTrim (s : List Char) : List Char :=
  (trimLeft (trimLeft s).reverse).reverse

/-- The opening delimiter of a markdown JSON fence, the literal the regex
in `extractJSON` starts with. -/
def fenceOpen : List Char := "```json".data

/-- The closing fence delimiter. -/
def fenceClose : List Char := "```".data

/-- Suffix of the text starting at the first opening brace, if any. -/
def dropUntilLBrace : List Char → Option (List Char)
  | [] => none
  | c :: rest => if c = '{' then some (c :: rest) else dropUntilLBrace rest

/-- Initial segment of the text ending at the last closing brace, if any. -/
def upToLastRBrace : List Char → Option (List Char)
  | [] => none
  | c :: rest =>
    match upToLastRBrace rest with
    | some l => some (c :: l)
    | none => if c = '}' then some [c] else none

/-- The greedy single-span brace heuristic: the substring reaching from the
first opening brace to the last closing brace of the text, mirroring the
second regex of `extractJSON` (an opening brace, any characters, a closing
brace, matched greedily). -/
def curlyMatch (text : List Char) : Option (List Char) :=
  match dropUntilLBrace text with
  | some (c :: tail) =>
    match upToLastRBrace tail with
    | some l => some (c :: l)
    | none => none
  | _ => none

/-- Embeds `extractJSON` (src/services/geminiService.ts lines 40-46).
First regex: a lazily matched fenced block opened by the lowercase literal
of `fenceOpen`; the leftmost such match returns the trimmed interior up to
the first subsequent closing fence.  If that regex fails, the brace
heuristic runs on the whole text.  (When the first opening fence has no
closing fence after it, no later opening fence can exist either, because a
later opening fence would itself contain a closing fence; the pattern has
no nontrivial self-overlap.  Falling straight through to the brace
heuristic in that case therefore agrees with the regex.) -/
def extractJSON (text : List Char) : Option (List Char) :=
  match splitFirst fenceOpen text with
  | some (_, rest) =>
    match splitFirst fenceClose rest with
    | some (interior, _) => some (jsTrim interior)
    | none => curlyMatch text
  | none => curlyMatch text

example : extractJSON "no fence here \x7ba\x7d tail".data = some "\x7ba\x7d".data := by decide
example : extractJSON "pre ```json \x7bk\x7d ``` post".data = some "\x7bk\x7d".data := by decide
example : extractJSON "nothing at all".data = none := by decide
example : extractJSON "x \x7b1 y \x7b2 z\x7d w\x7d v".data = some "\x7b1 y \x7b2 z\x7d w\x7d".data := by decide
example : extractJSON "```JSON \x7ba\x7d ```".data = some "\x7ba\x7d".data := by decide

/-! ### JSON values and JavaScript object semantics

`JSON.parse` is a platform builtin, not repository code, so it enters the
embedding as an abstract parameter `parse : List Char → Option Json`
(`none` standing for a thrown `SyntaxError`).  The repository code around
it — truthiness checks, property access, `Array.isArray` — is embedded
concretely below. -/

/-- A parsed JSON value as produced by `JSON.parse`. -/
inductive Json where
  | null : Json
  | bool : Bool → Json
  | num : Rat → Json
  | str : List Char → Json
  | arr : List Json → Json
  | obj : List (List Char × Json) → Json

/-- JavaScript truthiness of a parsed JSON value. -/
def jsTruthy : Json → Bool
  | .null => false
  | .bool b => b
  | .num q => decide (q ≠ 0)
  | .str s => decide (s ≠ [])
  | .arr _ => true
  | .obj _ => true

/-- JavaScript property access `j.name` on a parsed JSON value:
`none` models `undefined` (absent key, or access on a primitive).
Access on `null` throws in JavaScript; every such access in this code
happens inside a try block whose catch returns the fallback, which is the
same outcome as an `undefined` (falsy) read, so `none` is also used there. -/
def getField : Json → List Char → Option Json
  | .obj fields, name => (fields.find? (fun f => decide (f.1 = name))).map (fun f => f.2)
  | _, _ => none

/-- Truthiness of `j.name`, with `undefined` being falsy. -/
def fieldTruthy (j : Json) (name : List Char) : Bool :=
  match getField j name with
  | some v => jsTruthy v
  | none => false

/-- `Array.isArray`. -/
def isArr : Json → Bool
  | .arr _ => true
  | _ => false

/-! ### Remote Analysis Client (src/services/geminiService.ts)

The Gemini transport is external; one call is summarised by its observable
outcome.  `failure` covers a network error, a non-success status, or any
error thrown inside the surrounding try block; `response text` is the
string produced by `response.text()`. -/

/-- Outcome of one invocation of the remote generative-model capability. -/
inductive RemoteOutcome where
  | failure : RemoteOutcome
  | response : List Char → RemoteOutcome

/-- Embeds `const jsonText = extractJSON(text) || text`:
an extraction result that is the empty string is falsy in JavaScript, so
the raw text is used both when extraction signals absence and when it
returns an empty interior. -/
def extractOr (text : List Char) : List Char :=
  match extractJSON text with
  | some s => if s = [] then text else s
  | none => text

/-- The `cpu` and `memory` tiers of `ComputeCapabilities`
(src/services/geminiService.ts lines 27-32). -/
inductive Tier where
  | low | medium | high | extreme

/-- The `architecture` field of `ComputeCapabilities`. -/
inductive Arch where
  | x86_64 | arm64 | multi

/-- The `environment` field of `ComputeCapabilities` (`local` is a Lean
keyword, hence `local_env`). -/
inductive ExecEnvironment where
  | local_env | ci_cd | cloud

/-- Embeds the `ComputeCapabilities` interface. -/
structure ComputeCapabilities where
  cpu : Tier
  memory : Tier
  architecture : Arch
  environment : ExecEnvironment

/-- Embeds `getFallbackDockerAnalysis` (src/services/geminiService.ts
lines 198-248), as the JSON-shaped runtime value it evaluates to. -/
def getFallbackDockerAnalysis : Json :=
  .arr
    [ .obj
        [ ("instruction".data, .str "FROM python:3.9-slim".data)
        , ("description".data, .str "Sets the base image to Python 3.9 slim version".data)
        , ("impact".data, .str "Downloads ~45MB base image".data)
        , ("compilationTime".data, .str "30s".data)
        , ("computeIntensity".data, .str "low".data) ]
    , .obj
        [ ("instruction".data, .str "WORKDIR /app".data)
        , ("description".data, .str "Creates and sets working directory to /app".data)
        , ("impact".data, .str "Minimal impact, creates directory structure".data)
        , ("compilationTime".data, .str "<1s".data)
        , ("computeIntensity".data, .str "low".data) ]
    , .obj
        [ ("instruction".data, .str "COPY requirements.txt .".data)
        , ("description".data, .str "Copies requirements file to container".data)
        , ("impact".data, .str "Small file copy, ~1KB typically".data)
        , ("compilationTime".data, .str "<1s".data)
        , ("computeIntensity".data, .str "low".data) ]
    , .obj
        [ ("instruction".data, .str "RUN pip install -r requirements.txt".data)
        , ("description".data, .str "Installs Python dependencies".data)
        , ("impact".data, .str "Variable impact based on requirements".data)
        , ("compilationTime".data, .str "5-15m".data)
        , ("computeIntensity".data, .str "high".data) ]
    , .obj
        [ ("instruction".data, .str "COPY . .".data)
        , ("description".data, .str "Copies application source code".data)
        , ("impact".data, .str "Depends on application size".data)
        , ("compilationTime".data, .str "10s".data)
        , ("computeIntensity".data, .str "low".data) ]
    , .obj
        [ ("instruction".data, .str "EXPOSE 8000".data)
        , ("description".data, .str "Exposes port 8000 for the application".data)
        , ("impact".data, .str "No storage impact, configures networking".data)
        , ("compilationTime".data, .str "<1s".data)
        , ("computeIntensity".data, .str "low".data) ]
    , .obj
        [ ("instruction".data, .str "CMD [\"python\", \"app.py\"]".data)
        , ("description".data, .str "Sets the default command to run the application".data)
        , ("impact".data, .str "No additional impact, sets runtime behavior".data)
        , ("compilationTime".data, .str "<1s".data)
        , ("computeIntensity".data, .str "low".data) ] ]

/-- Embeds `getFallbackRequirementsAnalysis` (src/services/geminiService.ts
lines 250-289). -/
def getFallbackRequirementsAnalysis : Json :=
  .obj
    [ ( "requirements".data
      , .arr
          [ .obj
              [ ("package".data, .str "flask==2.3.3".data)
              , ("estimatedSize".data, .str "2.1 MB".data)
              , ("description".data, .str "Web framework for Python applications".data)
              , ("compilationRequired".data, .bool false)
              , ("buildTime".data, .str "N/A".data) ]
          , .obj
              [ ("package".data, .str "numpy==1.24.3".data)
              , ("estimatedSize".data, .str "15.8 MB".data)
              , ("description".data, .str "Scientific computing library".data)
              , ("compilationRequired".data, .bool true)
              , ("buildTime".data, .str "3-8m".data) ]
          , .obj
              [ ("package".data, .str "pandas==2.0.3".data)
              , ("estimatedSize".data, .str "28.4 MB".data)
              , ("description".data, .str "Data manipulation and analysis library".data)
              , ("compilationRequired".data, .bool true)
              , ("buildTime".data, .str "5-12m".data) ]
          , .obj
              [ ("package".data, .str "requests==2.31.0".data)
              , ("estimatedSize".data, .str "1.5 MB".data)
              , ("description".data, .str "HTTP library for API requests".data)
              , ("compilationRequired".data, .bool false)
              , ("buildTime".data, .str "N/A".data) ]
          , .obj
              [ ("package".data, .str "sqlalchemy==2.0.20".data)
              , ("estimatedSize".data, .str "3.2 MB".data)
              , ("description".data, .str "Database toolkit and ORM".data)
              , ("compilationRequired".data, .bool false)
              , ("buildTime".data, .str "N/A".data) ] ] )
    , ("totalSize".data, .str "51.0 MB".data) ]

/-- Embeds `getFallbackCompilationAnalysis` (src/services/geminiService.ts
lines 291-307). -/
def getFallbackCompilationAnalysis : Json :=
  .obj
    [ ("totalEstimatedTime".data, .str "8-15 minutes".data)
    , ( "bottlenecks".data
      , .arr
          [ .str "NumPy compilation from source (3-8 minutes)".data
          , .str "Pandas native extensions (5-12 minutes)".data
          , .str "Single-threaded pip install process".data
          , .str "No build cache utilization".data ] )
    , ( "recommendations".data
      , .arr
          [ .str "Use multi-stage builds to cache compilation steps".data
          , .str "Consider using pre-built wheels when available".data
          , .str "Implement Docker layer caching in CI/CD".data
          , .str "Use BuildKit for parallel builds".data
          , .str "Pin exact versions to improve cache hits".data ] )
    , ("parallelizable".data, .bool true) ]

/-- Embeds `analyzeDockerfile` (src/services/geminiService.ts lines 48-91).
`genAI` is false when no API key is configured; `remote` is the observed
behaviour of the single `generateContent` call; `parse` is `JSON.parse`.
The function is total: every exception in the source is caught inside the
operation, which the embedding renders as a plain (never failing) value. -/
def analyzeDockerfile (genAI : Bool) (dockerfileContent : List Char)
    (remote : RemoteOutcome) (parse : List Char → Option Json) : Json :=
  if genAI then
    match remote with
    | .failure => getFallbackDockerAnalysis
    | .response text =>
      match parse (extractOr text) with
      | some parsed => if isArr parsed then parsed else getFallbackDockerAnalysis
      | none => getFallbackDockerAnalysis
  else getFallbackDockerAnalysis

/-- Embeds `analyzeRequirements` (src/services/geminiService.ts lines
93-136).  The shape check is the JavaScript test
`parsed.requirements && parsed.totalSize`, a truthiness test on both
properties. -/
def analyzeRequirements (genAI : Bool) (requirementsContent : List Char)
    (remote : RemoteOutcome) (parse : List Char → Option Json) : Json :=
  if genAI then
    match remote with
    | .failure => getFallbackRequirementsAnalysis
    | .response text =>
      match parse (extractOr text) with
      | some parsed =>
        if fieldTruthy parsed "requirements".data && fieldTruthy parsed "totalSize".data
        then parsed else getFallbackRequirementsAnalysis
      | none => getFallbackRequirementsAnalysis
    else getFallbackRequirementsAnalysis

/-- Embeds `analyzeCompilationTime` (src/services/geminiService.ts lines
138-195).  The contents and the capabilities record only shape the prompt,
an argument of the external call; the shape check is the truthiness of
`parsed.totalEstimatedTime`. -/
def analyzeCompilationTime (genAI : Bool)
    (dockerfileContent requirementsContent : List Char)
    (computeCapabilities : ComputeCapabilities)
    (remote : RemoteOutcome) (parse : List Char → Option Json) : Json :=
  if genAI then
    match remote with
    | .failure => getFallbackCompilationAnalysis
    | .response text =>
      match parse (extractOr text) with
      | some parsed =>
        if fieldTruthy parsed "totalEstimatedTime".data
        then parsed else getFallbackCompilationAnalysis
      | none => getFallbackCompilationAnalysis
  else getFallbackCompilationAnalysis

/-! ### Network Speed Estimator and the shared results record (src/App.tsx,
kept in this repository as src/unnamed/part_000)

`fetch`, `Date.now` and `Math.random` are external; one run of
`testInternetSpeed` is summarised by the observable outcome of the fetch.
`success elapsedMs` is a completed fetch measured at `elapsedMs`
milliseconds (the model is meaningful for a positive elapsed time; a
zero-millisecond measurement would produce an infinite speed in
JavaScript, outside the rational embedding).  `failure rand` is a thrown
fetch with `Math.random()` returning `rand`. -/

/-- Observable outcome of the speed-test fetch. -/
inductive FetchOutcome where
  | success : Nat → FetchOutcome
  | failure : Rat → FetchOutcome

/-- The characters kept by `replace(/[^\d.]/g, '')`: digits and the dot. -/
def numChar (c : Char) : Bool := c.isDigit || c = '.'

/-- Embeds `totalSize.replace(/[^\d.]/g, '')` (App line 147): every
character other than a digit or a dot is deleted, wherever it occurs. -/
def stripNonNumeric (s : List Char) : List Char := s.filter numChar

/-- Value of a digit string read in base 10. -/
def digitsToNat (ds : List Char) : Nat :=
  ds.foldl (fun acc c => acc * 10 + (c.toNat - '0'.toNat)) 0

/-- JavaScript `parseFloat`, restricted to the digit-and-dot alphabet that
`stripNonNumeric` produces (sign, exponent and leading whitespace cannot
occur there): the longest numeric prefix `digits [. digits]` is read, and
`none` models `NaN` (no digit before a second dot or at all). -/
def jsParseFloat (s : List Char) : Option Rat :=
  let ip := s.takeWhile Char.isDigit
  let rest := s.dropWhile Char.isDigit
  match rest with
  | '.' :: rest2 =>
    let fp := rest2.takeWhile Char.isDigit
    if ip.isEmpty && fp.isEmpty then none
    else some ((digitsToNat ip : Rat) + (digitsToNat fp : Rat) / (10 ^ fp.length))
  | _ => if ip.isEmpty then none else some ((digitsToNat ip : Rat))

example : jsParseFloat "51.0".data = some 51 := by with_unfolding_all decide
example : jsParseFloat "1.22".data = some (61/50) := by with_unfolding_all decide
example : jsParseFloat "".data = none := by decide
example : jsParseFloat ".".data = none := by decide
example : jsParseFloat ".5".data = some (1/2) := by with_unfolding_all decide
example : jsParseFloat "1.2.3".data = some (6/5) := by with_unfolding_all decide
example : stripNonNumeric "1.2 GB (x2)".data = "1.22".data := by decide
example : stripNonNumeric "unknown".data = "".data := by decide

/-- `Math.round(x * 10) / 10`: rounding to one decimal place, with
JavaScript `Math.round` sending halves toward positive infinity. -/
def round1 (x : Rat) : Rat := ((Int.floor (x * 10 + 1/2) : Rat)) / 10

/-- Decimal rendering of a natural number, as template literals render the
integral numbers that occur here. -/
def natToStr (n : Nat) : List Char := (Nat.repr n).data

/-- Embeds the rendering of `timeInSeconds` (App lines 150-156).
`none` is the `NaN` produced by an unparseable size: `NaN < 60` is false,
so control reaches the minutes branch and both template slots render as
the three characters `NaN`. -/
def renderEstimate (t : Option Rat) : List Char :=
  match t with
  | some t =>
    if t < 60 then natToStr (Int.ceil t).toNat ++ " seconds".data
    else
      natToStr (Int.floor (t / 60)).toNat ++ "m ".data
        ++ natToStr (Int.ceil (t - 60 * (Int.floor (t / 60) : Rat))).toNat ++ "s".data
  | none => "NaNm NaNs".data

/-- The aggregate results record (interface `AnalysisResults`, App lines
16-23), the only shared mutable state.  `none` is an absent field of the
initial empty record; `totalSize` is kept at its declared string type
(the value stored there is the `totalSize` property of a requirements
analysis, a string in the fallback dataset and in every shape the prompt
requests). -/
structure AnalysisResults where
  dockerSteps : Option Json
  requirements : Option Json
  totalSize : Option (List Char)
  internetSpeed : Option Rat
  estimatedTime : Option (List Char)
  compilationAnalysis : Option Json

/-- The initial `useState({})` record. -/
def emptyResults : AnalysisResults :=
  { dockerSteps := none, requirements := none, totalSize := none
  , internetSpeed := none, estimatedTime := none, compilationAnalysis := none }

/-- Embeds one run of `testInternetSpeed` (App lines 129-175) as a
transformer of the results record.  On success the record receives the
rounded throughput and the `estimatedTime` string (possibly empty, when no
truthy `totalSize` is available); on failure only the rounded simulated
throughput is written. -/
def testInternetSpeedUpdate (outcome : FetchOutcome) (prev : AnalysisResults) :
    AnalysisResults :=
  match outcome with
  | .success elapsedMs =>
    let duration : Rat := (elapsedMs : Rat) / 1000
    let speed : Rat := (1 / duration) * 8
    let internetSpeed : Rat := max speed 1
    let estimatedTime : List Char :=
      match prev.totalSize with
      | some s =>
        if s.isEmpty then []
        else
          renderEstimate
            ((jsParseFloat (stripNonNumeric s)).map (fun sizeInMB => sizeInMB * 8 / internetSpeed))
      | none => []
    { prev with internetSpeed := some (round1 internetSpeed)
              , estimatedTime := some estimatedTime }
  | .failure rand =>
    let simulatedSpeed : Rat := 25 + rand * 50
    { prev with internetSpeed := some (round1 simulatedSpeed) }

/-- Reads the string stored into `newResults.totalSize` from a requirements
analysis value (`requirementsAnalysis.totalSize`, App line 95). -/
def jsonFieldToStr (j : Option Json) : Option (List Char) :=
  match j with
  | some (.str s) => some s
  | _ => none

/-- Embeds one run of `analyzeFiles` (App lines 78-104) as a transformer of
the results record: `hasDocker` and `hasReq` record which files are
uploaded; only the fields of `newResults` that were assigned are spread
over the previous record. -/
def analyzeFilesUpdate (hasDocker hasReq genAI : Bool)
    (dockerContent requirementsContent : List Char)
    (dockerRemote reqRemote : RemoteOutcome)
    (parse : List Char → Option Json) (prev : AnalysisResults) : AnalysisResults :=
  let reqResult := analyzeRequirements genAI requirementsContent reqRemote parse
  { prev with
    dockerSteps :=
      if hasDocker then some (analyzeDockerfile genAI dockerContent dockerRemote parse)
      else prev.dockerSteps
  , requirements :=
      if hasReq then getField reqResult "requirements".data else prev.requirements
  , totalSize :=
      if hasReq then jsonFieldToStr (getField reqResult "totalSize".data) else prev.totalSize }

/-- Embeds one run of `analyzeCompilation` (App lines 106-127) as a
transformer of the results record. -/
def analyzeCompilationUpdate (genAI : Bool)
    (dockerContent requirementsContent : List Char)
    (caps : ComputeCapabilities) (remote : RemoteOutcome)
    (parse : List Char → Option Json) (prev : AnalysisResults) : AnalysisResults :=
  { prev with
    compilationAnalysis :=
      some (analyzeCompilationTime genAI dockerContent requirementsContent caps remote parse) }

/-- Modelled from the spec: the leading numeric component of a size string,
in the words of section 4.4 step 7 — the first run of digits and the
decimal point in the string — read as a number.  The source code has no
such function; this definition exists to compare the spec reading against
the stripping behaviour the code actually uses. -/
def leadingNumericComponent (s : List Char) : Option Rat :=
  jsParseFloat ((s.dropWhile (fun c => !numChar c)).takeWhile numChar)

example : leadingNumericComponent "1.2 GB (x2)".data = some (6/5) := by with_unfolding_all decide
example : leadingNumericComponent "51.0 MB".data = some 51 := by with_unfolding_all decide
example : leadingNumericComponent "unknown".data = none := by decide

example :
    (testInternetSpeedUpdate (.success 1000)
      { emptyResults with totalSize := some "51.0 MB".data }).estimatedTime
      = some "51 seconds".data := by with_unfolding_all decide
example :
    (testInternetSpeedUpdate (.success 1000)
      { emptyResults with totalSize := some "".data }).estimatedTime
      = some "".data := by with_unfolding_all decide

/-! ### Helper lemmas -/

/-- Rounding to one decimal place preserves a lower bound of one. -/
theorem one_le_round1 {x : Rat} (hx : 1 ≤ x) : 1 ≤ round1 x := by
  have hf : (10 : Int) ≤ Int.floor (x * 10 + 1/2) := by
    rw [Int.le_floor]
    push_cast
    linarith
  have hf' : (10 : Rat) ≤ (Int.floor (x * 10 + 1/2) : Rat) := by exact_mod_cast hf
  unfold round1
  linarith

/-- Rounding to one decimal place maps the interval from 25 inclusive to 75
exclusive into the interval from 25 to 75, both inclusive: the upper end is
attainable, since every argument of at least 74.95 rounds up to 75. -/
theorem round1_of_sim_bounds {x : Rat} (h1 : 25 ≤ x) (h2 : x < 75) :
    25 ≤ round1 x ∧ round1 x ≤ 75 := by
  have hlo : (250 : Int) ≤ Int.floor (x * 10 + 1/2) := by
    rw [Int.le_floor]
    push_cast
    linarith
  have hhi : Int.floor (x * 10 + 1/2) < (751 : Int) := by
    rw [Int.floor_lt]
    push_cast
    linarith
  have hlo' : (250 : Rat) ≤ (Int.floor (x * 10 + 1/2) : Rat) := by exact_mod_cast hlo
  have hhi' : ((Int.floor (x * 10 + 1/2) : Rat)) ≤ 750 := by
    have : Int.floor (x * 10 + 1/2) ≤ (750 : Int) := by omega
    exact_mod_cast this
  unfold round1
  constructor <;> linarith

/-- Appending to a list all of whose elements satisfy the predicate takes
the whole first list. -/
theorem takeWhile_append_all {α : Type} {p : α → Bool} (a b : List α)
    (ha : ∀ c ∈ a, p c = true) : (a ++ b).takeWhile p = a ++ b.takeWhile p := by
  induction a with
  | nil => rfl
  | cons c a ih =>
    have hc : p c = true := ha c (by simp)
    simp only [List.cons_append, List.takeWhile_cons, hc, if_true]
    rw [ih (fun x hx => ha x (by simp [hx]))]

/-- A list none of whose elements satisfies the predicate has an empty
takeWhile. -/
theorem takeWhile_eq_nil_of_none {α : Type} {p : α → Bool} (b : List α)
    (hb : ∀ c ∈ b, p c = false) : b.takeWhile p = [] := by
  cases b with
  | nil => rfl
  | cons c b => simp [List.takeWhile_cons, hb c (by simp)]

/-! ### Lemmas about the string-scanning primitives -/

/-- Characterisation of `leadsWith`: it is the initial-segment relation. -/
theorem leadsWith_iff (p : List Char) :
    ∀ (s : List Char), leadsWith p s = true ↔ ∃ t, s = p ++ t := by
  induction p with
  | nil =>
    intro s
    constructor
    · intro _
      exact ⟨s, rfl⟩
    · intro _
      rfl
  | cons a as ih =>
    intro s
    cases s with
    | nil =>
      constructor
      · intro h
        simp [leadsWith] at h
      · rintro ⟨t, ht⟩
        simp at ht
    | cons b bs =>
      constructor
      · intro h
        simp only [leadsWith] at h
        by_cases hab : a = b
        · subst hab
          rw [if_pos rfl] at h
          obtain ⟨t, ht⟩ := (ih bs).mp h
          exact ⟨t, by rw [ht]; rfl⟩
        · rw [if_neg hab] at h
          exact absurd h (by simp)
      · rintro ⟨t, ht⟩
        have hb : b = a ∧ bs = as ++ t := by
          rw [List.cons_append] at ht
          exact ⟨(List.cons.injEq _ _ _ _ ▸ ht).1.symm ▸ rfl, by injection ht⟩
        obtain ⟨hba, hbs⟩ := hb
        subst hba
        simp only [leadsWith, if_pos rfl]
        exact (ih bs).mpr ⟨t, hbs⟩

/-- Soundness of `splitFirst`: a result is a decomposition of the input
around the pattern. -/
theorem splitFirst_eq (pat : List Char) :
    ∀ (s pre post : List Char),
      splitFirst pat s = some (pre, post) → s = pre ++ pat ++ post := by
  intro s
  induction s with
  | nil =>
    intro pre post h
    by_cases hl : leadsWith pat [] = true
    · obtain ⟨t, ht⟩ := (leadsWith_iff pat []).mp hl
      have hpat : pat = [] := by
        cases pat with
        | nil => rfl
        | cons a as => simp at ht
      simp [splitFirst, hl] at h
      obtain ⟨hpre, hpost⟩ := h
      subst hpre
      subst hpost
      simp [hpat]
    · simp [splitFirst, hl] at h
  | cons c rest ih =>
    intro pre post h
    by_cases hl : leadsWith pat (c :: rest) = true
    · obtain ⟨t, ht⟩ := (leadsWith_iff pat (c :: rest)).mp hl
      simp [splitFirst, hl] at h
      obtain ⟨hpre, hpost⟩ := h
      subst hpre
      rw [← hpost, ht, List.nil_append, List.drop_left]
    · unfold splitFirst at h
      rw [if_neg hl] at h
      cases hsr : splitFirst pat rest with
      | none => rw [hsr] at h; simp at h
      | some pr =>
        obtain ⟨p, q⟩ := pr
        rw [hsr] at h
        simp at h
        obtain ⟨hpre, hpost⟩ := h
        subst hpre
        subst hpost
        have hr := ih p q hsr
        rw [List.cons_append, List.cons_append, ← hr]

/-- Minimality of `splitFirst`: it finds the leftmost occurrence. -/
theorem splitFirst_min (pat : List Char) :
    ∀ (s pre post pre' post' : List Char),
      splitFirst pat s = some (pre, post) → s = pre' ++ pat ++ post' →
      pre.length ≤ pre'.length := by
  intro s
  induction s with
  | nil =>
    intro pre post pre' post' h hdec
    unfold splitFirst at h
    by_cases hl : leadsWith pat [] = true
    · rw [if_pos hl] at h
      have hpre : pre = [] := by
        injection h with h'
        injection h' with h1 h2
        exact h1.symm
      simp [hpre]
    · rw [if_neg hl] at h
      exact absurd h (by simp)
  | cons c rest ih =>
    intro pre post pre' post' h hdec
    by_cases hl : leadsWith pat (c :: rest) = true
    · unfold splitFirst at h
      rw [if_pos hl] at h
      have hpre : pre = [] := by
        injection h with h'
        injection h' with h1 h2
        exact h1.symm
      simp [hpre]
    · unfold splitFirst at h
      rw [if_neg hl] at h
      cases hsr : splitFirst pat rest with
      | none => rw [hsr] at h; simp at h
      | some pr =>
        obtain ⟨p, q⟩ := pr
        rw [hsr] at h
        simp at h
        obtain ⟨hpre, hpost⟩ := h
        cases pre' with
        | nil =>
          exfalso
          apply hl
          apply (leadsWith_iff _ _).mpr
          exact ⟨post', by simpa using hdec⟩
        | cons c' pre'' =>
          have hrest : rest = pre'' ++ pat ++ post' := by
            have h' := hdec
            rw [List.cons_append, List.cons_append, List.cons.injEq] at h'
            exact h'.2
          have hp := ih p q pre'' post' hsr hrest
          rw [← hpre]
          simp only [List.length_cons]
          omega

/-- When the pattern is an initial segment of the input, `splitFirst`
succeeds. -/
theorem splitFirst_isSome_of_leadsWith (pat s : List Char)
    (h : leadsWith pat s = true) : (splitFirst pat s).isSome = true := by
  cases s <;> simp [splitFirst, h]

/-- Completeness of `splitFirst`: it succeeds on any input containing the
pattern. -/
theorem splitFirst_isSome_append (pat : List Char) :
    ∀ (pre' post' : List Char),
      (splitFirst pat (pre' ++ pat ++ post')).isSome = true := by
  intro pre'
  induction pre' with
  | nil =>
    intro post'
    exact splitFirst_isSome_of_leadsWith pat _
      ((leadsWith_iff _ _).mpr ⟨post', by simp⟩)
  | cons c pre'' ih =>
    intro post'
    have hshape : (c :: pre'') ++ pat ++ post' = c :: (pre'' ++ pat ++ post') := by
      rw [List.cons_append, List.cons_append]
    rw [hshape]
    by_cases h : leadsWith pat (c :: (pre'' ++ pat ++ post')) = true
    · exact splitFirst_isSome_of_leadsWith pat _ h
    · simp only [splitFirst, if_neg h]
      rw [Option.isSome_map']
      exact ih post'

/-- Leftmost occurrence computed outright: when the text is a prefix block
sharing no character with the pattern, followed by the pattern, the split
happens exactly there. -/
theorem splitFirst_append_left (pat : List Char) (hne : pat ≠ []) :
    ∀ (B R : List Char), (∀ c ∈ B, c ∉ pat) →
      splitFirst pat (B ++ pat ++ R) = some (B, R) := by
  intro B
  induction B with
  | nil =>
    intro R _
    cases pat with
    | nil => exact absurd rfl hne
    | cons c0 p' =>
      have hl : leadsWith (c0 :: p') ((c0 :: p') ++ R) = true :=
        (leadsWith_iff _ _).mpr ⟨R, rfl⟩
      rw [List.nil_append]
      rw [List.cons_append] at hl ⊢
      simp only [splitFirst, if_pos hl]
      rw [show (c0 :: p').length = p'.length + 1 from rfl]
      rw [List.drop_succ_cons]
      rw [List.drop_left]
  | cons b B ih =>
    intro R hB
    have hb : ¬ leadsWith pat (b :: (B ++ pat ++ R)) = true := by
      rw [leadsWith_iff]
      rintro ⟨t, ht⟩
      cases pat with
      | nil => exact hne rfl
      | cons c0 p' =>
        rw [List.cons_append] at ht
        have hbc : b = c0 := by injection ht
        exact hB b (by simp) (by rw [hbc]; simp)
    rw [List.cons_append, List.cons_append]
    simp only [splitFirst, if_neg hb]
    rw [ih R (fun c hc => hB c (by simp [hc]))]
    rfl

/-- A text with no occurrence of the fence opener admits no fenced-block
decomposition. -/
theorem no_fence_decomp_of_no_backtick (t : List Char) (h : '`' ∉ t) :
    ¬ ∃ A B C, t = A ++ fenceOpen ++ B ++ fenceClose ++ C := by
  rintro ⟨A, B, C, rfl⟩
  apply h
  refine List.mem_append.mpr (Or.inl ?_)
  refine List.mem_append.mpr (Or.inl ?_)
  refine List.mem_append.mpr (Or.inl ?_)
  exact List.mem_append.mpr (Or.inr (by decide))

/-- A text with no lowercase letter j contains no fence opener. -/
theorem no_fenceOpen_of_no_j (t : List Char) (h : 'j' ∉ t) :
    ∀ U V, t ≠ U ++ fenceOpen ++ V := by
  intro U V hEq
  apply h
  rw [hEq]
  refine List.mem_append.mpr (Or.inl ?_)
  exact List.mem_append.mpr (Or.inr (by decide))

/-- A text with no opening brace admits no brace-span decomposition. -/
theorem no_curly_decomp_of_no_lbrace (t : List Char) (h : '{' ∉ t) :
    ¬ ∃ P M S, t = P ++ '{' :: (M ++ '}' :: S) := by
  rintro ⟨P, M, S, rfl⟩
  apply h
  simp

/-- Scanning for the first opening brace skips a brace-free prefix. -/
theorem dropUntilLBrace_append_not_mem :
    ∀ (P r : List Char), '{' ∉ P → dropUntilLBrace (P ++ r) = dropUntilLBrace r := by
  intro P
  induction P with
  | nil => intro r _; rfl
  | cons c P ih =>
    intro r hP
    have hc : ¬ c = '{' := fun hc => hP (by simp [hc])
    rw [List.cons_append]
    simp only [dropUntilLBrace, if_neg hc]
    exact ih r (fun hm => hP (by simp [hm]))

/-- Soundness of the opening-brace scan. -/
theorem dropUntilLBrace_sound :
    ∀ (s r : List Char), dropUntilLBrace s = some r →
      ∃ P, s = P ++ r ∧ '{' ∉ P ∧ ∃ r', r = '{' :: r' := by
  intro s
  induction s with
  | nil => intro r h; simp [dropUntilLBrace] at h
  | cons c rest ih =>
    intro r h
    by_cases hc : c = '{'
    · subst hc
      have h' : r = '{' :: rest := by
        simp [dropUntilLBrace] at h
        exact h.symm
      exact ⟨[], by simp [h'], by simp, rest, h'⟩
    · simp only [dropUntilLBrace, if_neg hc] at h
      obtain ⟨P, hPr, hP, r', hr'⟩ := ih r h
      have hcp : '{' ∉ c :: P := by
        intro hm
        rcases List.mem_cons.mp hm with hx | hx
        · exact hc hx.symm
        · exact hP hx
      exact ⟨c :: P, by simp [hPr], hcp, r', hr'⟩

/-- A text without closing braces fails the closing-brace scan. -/
theorem upToLastRBrace_none_of_not_mem :
    ∀ (S : List Char), '}' ∉ S → upToLastRBrace S = none := by
  intro S
  induction S with
  | nil => intro _; rfl
  | cons c S ih =>
    intro hS
    have hc : ¬ c = '}' := fun hc => hS (by simp [hc])
    simp only [upToLastRBrace]
    rw [ih (fun hm => hS (by simp [hm]))]
    simp [hc]

/-- Computation of the closing-brace scan on a text whose last closing
brace is followed by the brace-free suffix S. -/
theorem upToLastRBrace_append_last :
    ∀ (M S : List Char), '}' ∉ S →
      upToLastRBrace (M ++ '}' :: S) = some (M ++ ['}']) := by
  intro M
  induction M with
  | nil =>
    intro S hS
    rw [List.nil_append]
    simp only [upToLastRBrace]
    rw [upToLastRBrace_none_of_not_mem S hS]
    simp
  | cons c M ih =>
    intro S hS
    rw [List.cons_append]
    simp only [upToLastRBrace]
    rw [ih S hS]
    rfl

/-- Converse of the previous lemma: a failing closing-brace scan means the
text has no closing brace. -/
theorem not_mem_of_upToLastRBrace_none :
    ∀ (S : List Char), upToLastRBrace S = none → '}' ∉ S := by
  intro S
  induction S with
  | nil => intro _ hm; simp at hm
  | cons c rest ih =>
    intro h hm
    simp only [upToLastRBrace] at h
    cases hur : upToLastRBrace rest with
    | some l0 => rw [hur] at h; simp at h
    | none =>
      rw [hur] at h
      by_cases hc : c = '}'
      · rw [if_pos hc] at h; simp at h
      · rw [if_neg hc] at h
        rcases List.mem_cons.mp hm with hx | hx
        · exact hc hx.symm
        · exact ih hur hx

/-- Soundness of the closing-brace scan. -/
theorem upToLastRBrace_sound :
    ∀ (s l : List Char), upToLastRBrace s = some l →
      ∃ S l', s = l ++ S ∧ l = l' ++ ['}'] ∧ '}' ∉ S := by
  intro s
  induction s with
  | nil => intro l h; simp [upToLastRBrace] at h
  | cons c rest ih =>
    intro l h
    simp only [upToLastRBrace] at h
    cases hur : upToLastRBrace rest with
    | some l0 =>
      rw [hur] at h
      obtain ⟨S, l', hrS, hl0, hS⟩ := ih l0 hur
      refine ⟨S, c :: l', ?_, ?_, hS⟩
      · rw [← Option.some.inj h, List.cons_append, hrS]
      · rw [← Option.some.inj h, List.cons_append, hl0]
    | none =>
      rw [hur] at h
      by_cases hc : c = '}'
      · subst hc
        rw [if_pos rfl] at h
        refine ⟨rest, [], ?_, ?_, not_mem_of_upToLastRBrace_none rest hur⟩
        · rw [← Option.some.inj h]; rfl
        · rw [← Option.some.inj h]; rfl
      · rw [if_neg hc] at h
        simp at h

/-- The brace heuristic on a decomposed text: the span from the first
opening brace to the last closing brace. -/
theorem curlyMatch_decomp (P M S : List Char) (hP : '{' ∉ P) (hS : '}' ∉ S) :
    curlyMatch (P ++ '{' :: (M ++ '}' :: S)) = some ('{' :: (M ++ ['}'])) := by
  have h1 : dropUntilLBrace (P ++ '{' :: (M ++ '}' :: S)) = some ('{' :: (M ++ '}' :: S)) := by
    rw [dropUntilLBrace_append_not_mem P _ hP]
    simp [dropUntilLBrace]
  unfold curlyMatch
  rw [h1]
  show (match upToLastRBrace (M ++ '}' :: S) with
        | some l => some ('{' :: l)
        | none => none) = some ('{' :: (M ++ ['}']))
  rw [upToLastRBrace_append_last M S hS]

/-- The brace heuristic fails exactly on texts with no brace span. -/
theorem curlyMatch_eq_none (text : List Char)
    (h : ¬ ∃ P M S, text = P ++ '{' :: (M ++ '}' :: S)) : curlyMatch text = none := by
  cases hdu : dropUntilLBrace text with
  | none =>
    unfold curlyMatch
    rw [hdu]
  | some r =>
    obtain ⟨P, hPr, hP, r', hr'⟩ := dropUntilLBrace_sound text r hdu
    subst hr'
    cases hup : upToLastRBrace r' with
    | none =>
      unfold curlyMatch
      rw [hdu]
      show (match upToLastRBrace r' with
            | some l => some ('{' :: l)
            | none => none) = none
      rw [hup]
    | some l0 =>
      exfalso
      obtain ⟨S, l', hrS, hl0, hS⟩ := upToLastRBrace_sound r' l0 hup
      apply h
      refine ⟨P, l', S, ?_⟩
      rw [hPr, hrS, hl0]
      simp

/-! ### Claim theorems -/

/-- C1: when no remote credential is configured, each of the three analysis
operations returns exactly its operations static fallback value, for every
input text, every capabilities record, every remote behaviour and every
parse behaviour; and any two such calls return equal (hence deep-equal,
fully deterministic) results. -/
theorem claim_C1_no_credential_fallback
    (content content' dockerContent dockerContent' reqContent reqContent' : List Char)
    (remote remote' : RemoteOutcome)
    (parse parse' : List Char → Option Json)
    (caps caps' : ComputeCapabilities) :
    analyzeDockerfile false content remote parse = getFallbackDockerAnalysis
    ∧ analyzeRequirements false content remote parse = getFallbackRequirementsAnalysis
    ∧ analyzeCompilationTime false dockerContent reqContent caps remote parse
        = getFallbackCompilationAnalysis
    ∧ analyzeDockerfile false content remote parse
        = analyzeDockerfile false content' remote' parse'
    ∧ analyzeRequirements false content remote parse
        = analyzeRequirements false content' remote' parse'
    ∧ analyzeCompilationTime false dockerContent reqContent caps remote parse
        = analyzeCompilationTime false dockerContent' reqContent' caps' remote' parse' :=
  ⟨rfl, rfl, rfl, rfl, rfl, rfl⟩

/-- C5: for every input, a transport failure (or any error raised inside
the operation) and an unparseable response alike make each analysis
operation return its static fallback.  The embedded operations are total
Lean functions, so no exception can escape them, mirroring the try-catch
wrapping of the source. -/
theorem claim_C5_failure_yields_fallback
    (content dockerContent reqContent text : List Char)
    (caps : ComputeCapabilities) (parse : List Char → Option Json) :
    (analyzeDockerfile true content .failure parse = getFallbackDockerAnalysis
      ∧ analyzeRequirements true content .failure parse = getFallbackRequirementsAnalysis
      ∧ analyzeCompilationTime true dockerContent reqContent caps .failure parse
          = getFallbackCompilationAnalysis)
    ∧ (parse (extractOr text) = none →
        analyzeDockerfile true content (.response text) parse = getFallbackDockerAnalysis
        ∧ analyzeRequirements true content (.response text) parse
            = getFallbackRequirementsAnalysis
        ∧ analyzeCompilationTime true dockerContent reqContent caps (.response text) parse
            = getFallbackCompilationAnalysis) := by
  refine ⟨⟨rfl, rfl, rfl⟩, fun h => ⟨?_, ?_, ?_⟩⟩ <;>
    simp [analyzeDockerfile, analyzeRequirements, analyzeCompilationTime, h]

/-- C5 witness: a concrete parse function that always fails, on a concrete
response text, makes all three operations return their fallbacks. -/
theorem claim_C5_witness :
    analyzeDockerfile true "FROM alpine".data (.response "no json here".data) (fun _ => none)
      = getFallbackDockerAnalysis
    ∧ analyzeRequirements true "flask".data (.response "no json here".data) (fun _ => none)
        = getFallbackRequirementsAnalysis
    ∧ analyzeCompilationTime true "FROM alpine".data "flask".data
        ⟨.medium, .medium, .x86_64, .local_env⟩ (.response "no json here".data) (fun _ => none)
        = getFallbackCompilationAnalysis :=
  (claim_C5_failure_yields_fallback "FROM alpine".data "FROM alpine".data "flask".data
    "no json here".data ⟨.medium, .medium, .x86_64, .local_env⟩ (fun _ => none)).2 rfl

/-- A parsed response value that carries both required properties of the
requirements shape, but whose totalSize is the empty string (falsy). -/
def parsedBothFieldsEmptyTotal : Json :=
  .obj [("requirements".data, .arr []), ("totalSize".data, .str [])]

/-- C4 counterexample: a parsed value carrying both a requirements field
and a totalSize field for which analyzeRequirements nevertheless returns
the static fallback, not the parsed value verbatim — the source checks
JavaScript truthiness of the two properties, not their presence, and the
empty-string totalSize is falsy. -/
theorem claim_C4_counterexample :
    (getField parsedBothFieldsEmptyTotal "requirements".data).isSome = true
    ∧ (getField parsedBothFieldsEmptyTotal "totalSize".data).isSome = true
    ∧ analyzeRequirements true [] (.response []) (fun _ => some parsedBothFieldsEmptyTotal)
        = getFallbackRequirementsAnalysis
    ∧ fieldTruthy getFallbackRequirementsAnalysis "totalSize".data = true
    ∧ fieldTruthy parsedBothFieldsEmptyTotal "totalSize".data = false
    ∧ analyzeRequirements true [] (.response []) (fun _ => some parsedBothFieldsEmptyTotal)
        ≠ parsedBothFieldsEmptyTotal := by
  refine ⟨rfl, rfl, rfl, rfl, rfl, fun h => ?_⟩
  have h1 : fieldTruthy
      (analyzeRequirements true [] (.response []) (fun _ => some parsedBothFieldsEmptyTotal))
      "totalSize".data = true := rfl
  rw [h] at h1
  exact absurd h1 (by decide)

/-- C4 as amended: when the extracted text parses to a value whose
requirements and totalSize properties are both present and truthy, the
operation returns that parsed value verbatim; when either property is
missing or falsy, it returns the static fallback. -/
theorem claim_C4_truthy_fields_verbatim
    (content text : List Char) (parse : List Char → Option Json) (v : Json)
    (hp : parse (extractOr text) = some v) :
    (fieldTruthy v "requirements".data = true → fieldTruthy v "totalSize".data = true →
      analyzeRequirements true content (.response text) parse = v)
    ∧ (fieldTruthy v "requirements".data = false ∨ fieldTruthy v "totalSize".data = false →
      analyzeRequirements true content (.response text) parse
        = getFallbackRequirementsAnalysis) := by
  constructor
  · intro h1 h2
    simp [analyzeRequirements, hp, h1, h2]
  · rintro (h | h) <;> simp [analyzeRequirements, hp, h]

/-- C4 witness: a concrete well-shaped parsed value is returned verbatim. -/
theorem claim_C4_witness :
    analyzeRequirements true [] (.response [])
        (fun _ => some (.obj [("requirements".data, .arr []), ("totalSize".data, .str "9 MB".data)]))
      = .obj [("requirements".data, .arr []), ("totalSize".data, .str "9 MB".data)] :=
  (claim_C4_truthy_fields_verbatim [] [] _ _ rfl).1 rfl rfl

/-- C3: the claim (and the spec) say an unparseable totalSize makes the
speed test omit the download-time field; the code instead renders the NaN
produced by parseFloat straight into the template, storing the string NaNm
NaNs in the record.  This theorem evaluates the code at the failing input,
a successful one-second fetch with totalSize unknown. -/
theorem claim_C3_nan_estimate_written :
    jsParseFloat (stripNonNumeric "unknown".data) = none
    ∧ (testInternetSpeedUpdate (.success 1000)
        { emptyResults with totalSize := some "unknown".data }).estimatedTime
        = some "NaNm NaNs".data := by
  with_unfolding_all decide

/-- C9: each operation writes only its own fields of the shared results
record — the speed test only internetSpeed and estimatedTime, the file
analysis only dockerSteps, requirements and totalSize, the compilation
analysis only compilationAnalysis; every other field is returned
unchanged, for every previous record and all operation inputs. -/
theorem claim_C9_frame
    (hasDocker hasReq genAI : Bool) (dockerContent reqContent : List Char)
    (dockerRemote reqRemote remote : RemoteOutcome)
    (parse : List Char → Option Json) (caps : ComputeCapabilities)
    (outcome : FetchOutcome) (prev : AnalysisResults) :
    ((testInternetSpeedUpdate outcome prev).dockerSteps = prev.dockerSteps
      ∧ (testInternetSpeedUpdate outcome prev).requirements = prev.requirements
      ∧ (testInternetSpeedUpdate outcome prev).totalSize = prev.totalSize
      ∧ (testInternetSpeedUpdate outcome prev).compilationAnalysis = prev.compilationAnalysis)
    ∧ ((analyzeFilesUpdate hasDocker hasReq genAI dockerContent reqContent
          dockerRemote reqRemote parse prev).internetSpeed = prev.internetSpeed
      ∧ (analyzeFilesUpdate hasDocker hasReq genAI dockerContent reqContent
          dockerRemote reqRemote parse prev).estimatedTime = prev.estimatedTime
      ∧ (analyzeFilesUpdate hasDocker hasReq genAI dockerContent reqContent
          dockerRemote reqRemote parse prev).compilationAnalysis = prev.compilationAnalysis)
    ∧ ((analyzeCompilationUpdate genAI dockerContent reqContent caps remote parse prev).dockerSteps
          = prev.dockerSteps
      ∧ (analyzeCompilationUpdate genAI dockerContent reqContent caps remote parse prev).requirements
          = prev.requirements
      ∧ (analyzeCompilationUpdate genAI dockerContent reqContent caps remote parse prev).totalSize
          = prev.totalSize
      ∧ (analyzeCompilationUpdate genAI dockerContent reqContent caps remote parse prev).internetSpeed
          = prev.internetSpeed
      ∧ (analyzeCompilationUpdate genAI dockerContent reqContent caps remote parse prev).estimatedTime
          = prev.estimatedTime) := by
  refine ⟨?_, ⟨rfl, rfl, rfl⟩, rfl, rfl, rfl, rfl, rfl⟩
  cases outcome <;> exact ⟨rfl, rfl, rfl, rfl⟩

/-- C6 counterexample: the claim puts every fetch-failure result in the
half-open interval from 25 inclusive to 75 exclusive, but the value the
code stores is rounded to one decimal place after the random draw, and a
draw of 0.999 (which lies in the valid range of Math.random) yields
25 + 0.999 * 50 = 74.95, which rounds up to exactly 75 — outside that
half-open interval. -/
theorem claim_C6_counterexample :
    (0 : Rat) ≤ 999/1000
    ∧ (999/1000 : Rat) < 1
    ∧ (testInternetSpeedUpdate (.failure (999/1000)) emptyResults).internetSpeed = some 75
    ∧ ¬ ((75 : Rat) < 75) := by
  with_unfolding_all decide

/-- C6 as amended: the stored throughput is always at least 1 (for a
measured fetch with positive elapsed time as well as for a failed fetch),
and for a failed fetch with a random draw in the valid range the stored
value lies in the closed interval from 25 to 75 — the upper end reachable
only through the final rounding to one decimal place. -/
theorem claim_C6_throughput_bounds
    (elapsedMs : Nat) (r : Rat) (prev prev' : AnalysisResults)
    (hms : 0 < elapsedMs) (h0 : 0 ≤ r) (h1 : r < 1) :
    (∀ v, (testInternetSpeedUpdate (.success elapsedMs) prev).internetSpeed = some v → 1 ≤ v)
    ∧ (∀ v, (testInternetSpeedUpdate (.failure r) prev').internetSpeed = some v →
        25 ≤ v ∧ v ≤ 75) := by
  constructor
  · intro v hv
    have he : (testInternetSpeedUpdate (.success elapsedMs) prev).internetSpeed
        = some (round1 (max ((1 / ((elapsedMs : Rat) / 1000)) * 8) 1)) := rfl
    rw [he] at hv
    cases hv
    exact one_le_round1 (le_max_right _ _)
  · intro v hv
    have he : (testInternetSpeedUpdate (.failure r) prev').internetSpeed
        = some (round1 (25 + r * 50)) := rfl
    rw [he] at hv
    cases hv
    exact round1_of_sim_bounds (by linarith) (by linarith)

/-- C6 witness: a 2000 ms successful fetch stores 4 Mbps, at least 1; a
failed fetch with draw 0.5 stores 50 Mbps, inside the closed interval. -/
theorem claim_C6_witness :
    (testInternetSpeedUpdate (.success 2000) emptyResults).internetSpeed = some 4
    ∧ (1 : Rat) ≤ 4
    ∧ (testInternetSpeedUpdate (.failure (1/2)) emptyResults).internetSpeed = some 50
    ∧ (25 ≤ (50 : Rat) ∧ (50 : Rat) ≤ 75) :=
  ⟨by with_unfolding_all decide,
   (claim_C6_throughput_bounds 2000 (1/2) emptyResults emptyResults (by decide)
      (by norm_num) (by norm_num)).1 4 (by with_unfolding_all decide),
   by with_unfolding_all decide,
   (claim_C6_throughput_bounds 2000 (1/2) emptyResults emptyResults (by decide)
      (by norm_num) (by norm_num)).2 50 (by with_unfolding_all decide)⟩

/-- C7 counterexample: a failed fetch with a previously computed numeric
totalSize available — the claim says the download-time estimate is still
computed and included, but the catch branch of the code writes only the
throughput, leaving estimatedTime untouched (here: still absent). -/
theorem claim_C7_counterexample :
    jsParseFloat (stripNonNumeric "51.0 MB".data) = some 51
    ∧ (0 : Rat) ≤ 1/2 ∧ (1/2 : Rat) < 1
    ∧ (testInternetSpeedUpdate (.failure (1/2))
        { emptyResults with totalSize := some "51.0 MB".data }).estimatedTime = none := by
  with_unfolding_all decide

/-- C7 as amended: the download-time field is computed and written only in
runs whose fetch succeeds (there it is always written, as the rendered
estimate when a truthy totalSize is available); in a failed run only the
throughput field is written and estimatedTime retains its previous
value. -/
theorem claim_C7_estimate_only_on_success
    (elapsedMs : Nat) (r : Rat) (prev prev' : AnalysisResults) (s : List Char)
    (hts : prev.totalSize = some s) (hne : s.isEmpty = false) :
    ((testInternetSpeedUpdate (.success elapsedMs) prev).estimatedTime).isSome = true
    ∧ (testInternetSpeedUpdate (.failure r) prev').estimatedTime = prev'.estimatedTime
    ∧ (testInternetSpeedUpdate (.failure r) prev').internetSpeed
        = some (round1 (25 + r * 50)) :=
  ⟨rfl, rfl, rfl⟩

/-- C7 witness: with totalSize present, a successful run writes the
estimate and a failed run preserves the previous estimate while storing
the simulated 50 Mbps. -/
theorem claim_C7_witness :
    ((testInternetSpeedUpdate (.success 1000)
        { emptyResults with totalSize := some "51.0 MB".data }).estimatedTime).isSome = true
    ∧ (testInternetSpeedUpdate (.failure (1/2))
        { emptyResults with totalSize := some "51.0 MB".data
                          , estimatedTime := some "3 seconds".data }).estimatedTime
        = some "3 seconds".data
    ∧ (testInternetSpeedUpdate (.failure (1/2))
        { emptyResults with totalSize := some "51.0 MB".data
                          , estimatedTime := some "3 seconds".data }).internetSpeed
        = some 50 :=
  ⟨(claim_C7_estimate_only_on_success 1000 (1/2)
      { emptyResults with totalSize := some "51.0 MB".data }
      { emptyResults with totalSize := some "51.0 MB".data
                        , estimatedTime := some "3 seconds".data }
      "51.0 MB".data rfl rfl).1,
   (claim_C7_estimate_only_on_success 1000 (1/2)
      { emptyResults with totalSize := some "51.0 MB".data }
      { emptyResults with totalSize := some "51.0 MB".data
                        , estimatedTime := some "3 seconds".data }
      "51.0 MB".data rfl rfl).2.1,
   ((claim_C7_estimate_only_on_success 1000 (1/2)
      { emptyResults with totalSize := some "51.0 MB".data }
      { emptyResults with totalSize := some "51.0 MB".data
                        , estimatedTime := some "3 seconds".data }
      "51.0 MB".data rfl rfl).2.2).trans (by with_unfolding_all decide)⟩

/-- C8 counterexample: the claim says the size used for the estimate is
the leading numeric component of totalSize; the code instead deletes every
non-digit non-dot character and parses the concatenation of all remaining
characters, so the string 1.2 GB (x2) yields 1.22, not 1.2, and a full run
over the string 10.5 MB approx 11 renders 1m 25s where the leading numeric
component 10.5 would render 1m 24s. -/
theorem claim_C8_counterexample :
    jsParseFloat (stripNonNumeric "1.2 GB (x2)".data) = some (61/50)
    ∧ leadingNumericComponent "1.2 GB (x2)".data = some (6/5)
    ∧ ((61 : Rat)/50 ≠ 6/5)
    ∧ (testInternetSpeedUpdate (.success 8000)
        { emptyResults with totalSize := some "10.5 MB approx 11".data }).estimatedTime
        = some "1m 25s".data
    ∧ renderEstimate ((leadingNumericComponent "10.5 MB approx 11".data).map
        (fun q => q * 8 / max ((1 / ((8000 : Rat) / 1000)) * 8) 1)) = "1m 24s".data
    ∧ "1m 25s".data ≠ "1m 24s".data := by
  with_unfolding_all decide

/-- C8 as amended: the numeric size used by the estimate is parseFloat of
the concatenation of every digit and dot character of totalSize, wherever
they occur; this agrees with the leading numeric component exactly when no
digit or dot occurs after the leading numeric run, as in every string of
the shape the prompt requests. -/
theorem claim_C8_all_digits_concatenated
    (a b : List Char)
    (ha : ∀ c ∈ a, numChar c = true) (hb : ∀ c ∈ b, numChar c = false)
    (hne : a ≠ []) :
    stripNonNumeric (a ++ b) = a
    ∧ jsParseFloat (stripNonNumeric (a ++ b)) = leadingNumericComponent (a ++ b) := by
  have hstrip : stripNonNumeric (a ++ b) = a := by
    unfold stripNonNumeric
    rw [List.filter_append]
    rw [List.filter_eq_self.mpr ha, List.filter_eq_nil_iff.mpr (by intro c hc; simp [hb c hc])]
    simp
  refine ⟨hstrip, ?_⟩
  have hdrop : (a ++ b).dropWhile (fun c => !numChar c) = a ++ b := by
    cases a with
    | nil => exact absurd rfl hne
    | cons c a =>
      have hc : numChar c = true := ha c (by simp)
      simp [List.dropWhile_cons, hc]
  have htake : (a ++ b).takeWhile numChar = a := by
    rw [takeWhile_append_all a b ha, takeWhile_eq_nil_of_none b hb]
    simp
  unfold leadingNumericComponent
  rw [hstrip, hdrop, htake]

/-- C8 witness: on the well-shaped string 51.0 MB the stripped
concatenation and the leading numeric component agree. -/
theorem claim_C8_witness :
    stripNonNumeric ("51.0".data ++ " MB".data) = "51.0".data
    ∧ jsParseFloat (stripNonNumeric ("51.0".data ++ " MB".data))
        = leadingNumericComponent ("51.0".data ++ " MB".data) :=
  claim_C8_all_digits_concatenated "51.0".data " MB".data (by decide) (by decide) (by decide)

/-- C2: extraction priority of extractJSON.  When the text contains a
fenced JSON block (decomposition around the first fence opener and its
first subsequent closer), the result is exactly the trimmed interior of
that block.  When no fenced block exists, the result is the span from the
first opening brace to the last closing brace when the text has such a
span (an opening brace with a closing brace strictly after it), and
absence (none) otherwise. -/
theorem claim_C2_extractJSON (text : List Char) :
    (∀ A B C, text = A ++ fenceOpen ++ B ++ fenceClose ++ C →
        (∀ A' C', text = A' ++ fenceOpen ++ C' → A.length ≤ A'.length) →
        (∀ B' C', B ++ fenceClose ++ C = B' ++ fenceClose ++ C' → B.length ≤ B'.length) →
        extractJSON text = some (jsTrim B))
    ∧ ((¬ ∃ A B C, text = A ++ fenceOpen ++ B ++ fenceClose ++ C) →
        (∀ P M S, text = P ++ '{' :: (M ++ '}' :: S) → '{' ∉ P → '}' ∉ S →
            extractJSON text = some ('{' :: (M ++ ['}'])))
        ∧ ((¬ ∃ P M S, text = P ++ '{' :: (M ++ '}' :: S)) → extractJSON text = none)) := by
  constructor
  · intro A B C hdec hminA hminB
    have htxt : text = A ++ fenceOpen ++ (B ++ fenceClose ++ C) := by
      rw [hdec]
      simp [List.append_assoc]
    have hsome : (splitFirst fenceOpen text).isSome = true := by
      rw [htxt]
      exact splitFirst_isSome_append fenceOpen A (B ++ fenceClose ++ C)
    obtain ⟨⟨pre, post⟩, hps⟩ := Option.isSome_iff_exists.mp hsome
    have hs : text = pre ++ fenceOpen ++ post := splitFirst_eq fenceOpen text pre post hps
    have hlen1 : pre.length ≤ A.length :=
      splitFirst_min fenceOpen text pre post A (B ++ fenceClose ++ C) hps htxt
    have hlen2 : A.length ≤ pre.length := hminA pre post hs
    have heq : pre ++ (fenceOpen ++ post) = A ++ (fenceOpen ++ (B ++ fenceClose ++ C)) := by
      rw [← List.append_assoc, ← List.append_assoc, ← hs, ← htxt]
    obtain ⟨hpreA, hpostEq⟩ := List.append_inj heq (by omega)
    have hpost : post = B ++ fenceClose ++ C := (List.append_inj hpostEq rfl).2
    have hsome2 : (splitFirst fenceClose post).isSome = true := by
      rw [hpost]
      exact splitFirst_isSome_append fenceClose B C
    obtain ⟨⟨pre2, post2⟩, hps2⟩ := Option.isSome_iff_exists.mp hsome2
    have hs2 : post = pre2 ++ fenceClose ++ post2 :=
      splitFirst_eq fenceClose post pre2 post2 hps2
    have hlen3 : pre2.length ≤ B.length :=
      splitFirst_min fenceClose post pre2 post2 B C hps2 hpost
    have hlen4 : B.length ≤ pre2.length := hminB pre2 post2 (hpost ▸ hs2)
    have heq2 : pre2 ++ (fenceClose ++ post2) = B ++ (fenceClose ++ C) := by
      rw [← List.append_assoc, ← List.append_assoc, ← hs2, ← hpost]
    obtain ⟨hpre2B, _⟩ := List.append_inj heq2 (by omega)
    have hval : extractJSON text = some (jsTrim pre2) := by
      unfold extractJSON
      rw [hps]
      show (match splitFirst fenceClose post with
            | some (interior, _) => some (jsTrim interior)
            | none => curlyMatch text) = some (jsTrim pre2)
      rw [hps2]
    rw [hval, hpre2B]
  · intro hnof
    have hcurly : extractJSON text = curlyMatch text := by
      cases hsf : splitFirst fenceOpen text with
      | none =>
        unfold extractJSON
        rw [hsf]
      | some pr =>
        obtain ⟨pre, post⟩ := pr
        have hs : text = pre ++ fenceOpen ++ post := splitFirst_eq fenceOpen text pre post hsf
        cases hsc : splitFirst fenceClose post with
        | none =>
          unfold extractJSON
          rw [hsf]
          show (match splitFirst fenceClose post with
                | some (interior, _) => some (jsTrim interior)
                | none => curlyMatch text) = curlyMatch text
          rw [hsc]
        | some pr2 =>
          obtain ⟨pre2, post2⟩ := pr2
          exfalso
          apply hnof
          have hs2 : post = pre2 ++ fenceClose ++ post2 :=
            splitFirst_eq fenceClose post pre2 post2 hsc
          refine ⟨pre, pre2, post2, ?_⟩
          rw [hs, hs2]
          simp [List.append_assoc]
    constructor
    · intro P M S hPMS hP hS
      rw [hcurly, hPMS]
      exact curlyMatch_decomp P M S hP hS
    · intro hnoc
      rw [hcurly]
      exact curlyMatch_eq_none text hnoc

/-- C2 witness: a text whose single fenced block interior is returned
trimmed; a fence-free text whose brace span is returned; a text with
neither, signalling absence. -/
theorem claim_C2_witness :
    extractJSON (fenceOpen ++ " \x7bk: 1\x7d ".data ++ fenceClose ++ " tail".data)
      = some "\x7bk: 1\x7d".data
    ∧ extractJSON ("pre ".data ++ '{' :: ("body".data ++ '}' :: " post".data))
      = some "\x7bbody\x7d".data
    ∧ extractJSON "no braces and no fence".data = none := by
  refine ⟨?_, ?_, ?_⟩
  · have h := (claim_C2_extractJSON
        (fenceOpen ++ " \x7bk: 1\x7d ".data ++ fenceClose ++ " tail".data)).1
      [] " \x7bk: 1\x7d ".data " tail".data (by simp)
      (fun A' C' _ => Nat.zero_le _)
      (fun B' C' hB => splitFirst_min fenceClose _ _ _ B' C'
        (splitFirst_append_left fenceClose (by decide) _ _ (by decide)) hB)
    exact h.trans (by decide)
  · have h := ((claim_C2_extractJSON
        ("pre ".data ++ '{' :: ("body".data ++ '}' :: " post".data))).2
      (no_fence_decomp_of_no_backtick _ (by decide))).1
      "pre ".data "body".data " post".data rfl (by decide) (by decide)
    exact h.trans (by decide)
  · exact ((claim_C2_extractJSON "no braces and no fence".data).2
      (no_fence_decomp_of_no_backtick _ (by decide))).2
      (no_curly_decomp_of_no_lbrace _ (by decide))

/-- C10: the fenced branch of extractJSON recognises only the lowercase
fence label, so a text with no lowercase fence opener (for instance one
whose fence is labelled JSON in uppercase, or unlabelled) falls through to
the brace heuristic; and on a text holding two fenced blocks the trimmed
interior of the first block is returned. -/
theorem claim_C10_fence_label (text B m B2 C : List Char) :
    ((∀ U V, text ≠ U ++ fenceOpen ++ V) → extractJSON text = curlyMatch text)
    ∧ ((∀ c ∈ B, c ∉ fenceClose) →
        extractJSON (fenceOpen ++ B ++ fenceClose ++ m ++ fenceOpen ++ B2 ++ fenceClose ++ C)
          = some (jsTrim B)) := by
  constructor
  · intro h
    cases hsf : splitFirst fenceOpen text with
    | none =>
      unfold extractJSON
      rw [hsf]
    | some pr =>
      obtain ⟨pre, post⟩ := pr
      exact absurd (splitFirst_eq fenceOpen text pre post hsf) (h pre post)
  · intro hB
    have hshape : fenceOpen ++ B ++ fenceClose ++ m ++ fenceOpen ++ B2 ++ fenceClose ++ C
        = [] ++ fenceOpen ++ (B ++ fenceClose ++ (m ++ fenceOpen ++ B2 ++ fenceClose ++ C)) := by
      simp [List.append_assoc]
    rw [hshape]
    have h1 := splitFirst_append_left fenceOpen (by decide) []
      (B ++ fenceClose ++ (m ++ fenceOpen ++ B2 ++ fenceClose ++ C)) (by simp)
    have h2 := splitFirst_append_left fenceClose (by decide) B
      (m ++ fenceOpen ++ B2 ++ fenceClose ++ C) hB
    unfold extractJSON
    rw [h1]
    show (match splitFirst fenceClose
            (B ++ fenceClose ++ (m ++ fenceOpen ++ B2 ++ fenceClose ++ C)) with
          | some (interior, _) => some (jsTrim interior)
          | none => curlyMatch
              ([] ++ fenceOpen ++ (B ++ fenceClose ++ (m ++ fenceOpen ++ B2 ++ fenceClose ++ C))))
        = some (jsTrim B)
    rw [h2]

/-- C10 witness: a text whose only fence is labelled JSON in uppercase is
handled by the brace heuristic, and a text with two lowercase fenced
blocks returns the trimmed interior of the first. -/
theorem claim_C10_witness :
    extractJSON "fence ```JSON upper \x7bx\x7d``` here".data
      = curlyMatch "fence ```JSON upper \x7bx\x7d``` here".data
    ∧ curlyMatch "fence ```JSON upper \x7bx\x7d``` here".data = some "\x7bx\x7d".data
    ∧ extractJSON (fenceOpen ++ " first ".data ++ fenceClose ++ " mid ".data
        ++ fenceOpen ++ " second ".data ++ fenceClose ++ "!".data)
      = some "first".data := by
  refine ⟨?_, by decide, ?_⟩
  · exact (claim_C10_fence_label "fence ```JSON upper \x7bx\x7d``` here".data [] [] [] []).1
      (no_fenceOpen_of_no_j _ (by decide))
  · have h := (claim_C10_fence_label [] " first ".data " mid ".data " second ".data
      "!".data).2 (by decide)
    exact h.trans (by decide)

end DockerAnalysis
